import Mathlib

/-!
Verification of the Donna backend turn-synthesis pipeline
(src/Donna-Backend/index.js).

The `/chat` handler parses the chat-completion output as JSON, unwraps a
`messages` wrapper field when present, iterates the resulting value with a
`for` loop enriching each turn through three awaited external stages
(text-to-speech, ffmpeg transcode, rhubarb viseme extraction) followed by
two artifact read-backs, and responds with `{ messages }`.

The embedding models JSON values, the JavaScript property/length/index
semantics the handler relies on, the external collaborators as an
environment of per-index outcomes, and the loop as explicit recursion that
also records the trace of external-stage invocations.
-/

namespace Donna

/-- A parsed JSON value, as produced by `JSON.parse`.  JavaScript's
`undefined` is not a JSON value; it is modelled as `Option.none` at
property-access sites. -/
inductive Json where
  | null
  | bool (b : Bool)
  | num (n : Int)
  | str (s : String)
  | arr (elems : List Json)
  | obj (fields : List (String × Json))

/-- First-match association-list lookup, the field lookup of a JavaScript
object (`JSON.parse` keeps keys unique, so first match is the match). -/
def lookupField : List (String × Json) → String → Option Json
  | [], _ => none
  | (k, v) :: fs, key => if k = key then some v else lookupField fs key

/-- Overwrite the field `k` if present (in place), otherwise append it at
the end: JavaScript property assignment on a plain object preserves
insertion order for existing keys and appends new ones. -/
def setFields : List (String × Json) → String → Json → List (String × Json)
  | [], k, v => [(k, v)]
  | (a, b) :: fs, k, v =>
      if a = k then (k, v) :: fs else (a, b) :: setFields fs k v

/-- JavaScript property read `v.k` on a non-`null` value: objects look up
the named field; arrays and strings expose `length`; every other read
yields `undefined` (`none`).  A read on `null` throws instead of yielding
`undefined`; `getProp` stays total, and that throw is modelled at each
site where the read value may be `null`: `chatRequest` guards the line-89
wrapper read, and the loop's `isNull` test guards the element reads.
(Numeric coercion of a non-numeric `length` value is not modelled; no claim
exercises it.) -/
def getProp : Json → String → Option Json
  | .obj fs, k => lookupField fs k
  | .arr xs, k => if k = "length" then some (.num xs.length) else none
  | .str s, k => if k = "length" then some (.num s.length) else none
  | _, _ => none

/-- JavaScript truthiness of a defined value. -/
def truthy : Json → Bool
  | .null => false
  | .bool b => b
  | .num n => n ≠ 0
  | .str s => s ≠ ""
  | .arr _ => true
  | .obj _ => true

/-- Truthiness of a possibly-`undefined` value: `undefined` is falsy. -/
def truthyOpt : Option Json → Bool
  | none => false
  | some v => truthy v

/-- Lines 88-91: `let messages = JSON.parse(...); if (messages.messages)
messages = messages.messages;` — unwrap the well-known wrapper field when
it is present and truthy, otherwise keep the parsed value as is. -/
def unwrapMessages (v : Json) : Json :=
  match getProp v "messages" with
  | some m => if truthy m then m else v
  | none => v

/-- The number of iterations of the `for (let i = 0; i < messages.length; ...)`
loop: the numeric value of the `length` property, and `0` when `length` is
`undefined` or not a number (`i < undefined` is false in JavaScript). -/
def loopBound (v : Json) : Nat :=
  match getProp v "length" with
  | some (.num n) => n.toNat
  | _ => 0

/-- JavaScript indexed read `v[i]` for a numeric index: array element
(`undefined` out of range), one-character string for strings, numeric-string
field for objects, `undefined` otherwise. -/
def jsIndex : Json → Nat → Option Json
  | .arr xs, i => xs.get? i
  | .str s, i => (s.data.get? i).map (fun c => .str (String.mk [c]))
  | .obj fs, i => lookupField fs (toString i)
  | _, _ => none

/-- JavaScript indexed write `v[i] = e` as a pure update (in the handler the
element itself is mutated through the `message` reference; writing the
updated element back at the same index is the pure rendering of that). -/
def setIndex : Json → Nat → Json → Json
  | .arr xs, i, v => .arr (xs.set i v)
  | .obj fs, i, v => .obj (setFields fs (toString i) v)
  | other, _, _ => other

/-- Strict-mode property assignment `m.k = v`: objects gain or update the
field; arrays accept the write but a non-index property is dropped when the
array is serialized into the response, so the serialized value is unchanged;
assignment on a primitive or `null` throws a `TypeError` (`none`). -/
def assignProp (m : Json) (k : String) (v : Json) : Option Json :=
  match m with
  | .obj fs => some (.obj (setFields fs k v))
  | .arr xs => some (.arr xs)
  | _ => none

/-- Line 84: `content: userMessage || "Hello"` — JavaScript `||` on a
possibly-`undefined` left operand. -/
def jsOr (v : Option Json) (d : Json) : Json :=
  match v with
  | some x => if truthy x then x else d
  | none => d

/-- The user content the chat-completion collaborator is invoked with:
`req.body.message || "Hello"` (lines 62 and 84). -/
def userContent (body : Json) : Json :=
  jsOr (getProp body "message") (.str "Hello")

/-- The base64 alphabet, positions 0 to 63 (RFC 4648, the encoding used by
Node `Buffer.toString` with the `base64` argument). -/
def b64Alphabet : List Char :=
  ['A', 'B', 'C', 'D', 'E', 'F', 'G', 'H', 'I', 'J', 'K', 'L', 'M',
   'N', 'O', 'P', 'Q', 'R', 'S', 'T', 'U', 'V', 'W', 'X', 'Y', 'Z',
   'a', 'b', 'c', 'd', 'e', 'f', 'g', 'h', 'i', 'j', 'k', 'l', 'm',
   'n', 'o', 'p', 'q', 'r', 's', 't', 'u', 'v', 'w', 'x', 'y', 'z',
   '0', '1', '2', '3', '4', '5', '6', '7', '8', '9', '+', '/']

/-- The base64 digit for a 6-bit value. -/
def b64Char (n : Nat) : Char := b64Alphabet.getD n 'A'

/-- Position of a character in the base64 alphabet, `none` for characters
outside it (including the padding character). -/
def charVal (c : Char) : Option Nat :=
  go b64Alphabet 0
where
  go : List Char → Nat → Option Nat
    | [], _ => none
    | a :: rest, i => if a = c then some i else go rest (i + 1)

/-- Base64 encoding of a byte sequence with padding, the transport encoding
applied by `audioFileToBase64` (line 119, `data.toString` with `base64`):
groups of three bytes become four digits, a trailing byte or byte pair is
padded with `=`. -/
def base64EncodeBytes : List Nat → List Char
  | [] => []
  | [b0] =>
      [b64Char (b0 / 4), b64Char (b0 % 4 * 16), '=', '=']
  | [b0, b1] =>
      [b64Char (b0 / 4), b64Char (b0 % 4 * 16 + b1 / 16),
       b64Char (b1 % 16 * 4), '=']
  | b0 :: b1 :: b2 :: rest =>
      b64Char (b0 / 4) :: b64Char (b0 % 4 * 16 + b1 / 16) ::
      b64Char (b1 % 16 * 4 + b2 / 64) :: b64Char (b2 % 64) ::
      base64EncodeBytes rest

/-- Strict base64 decoding (the inverse direction of the round-trip claim;
the repository itself only encodes, a compliant consumer decodes): four
digits yield three bytes, the two padded final-group forms yield one or two
bytes, anything else is rejected. -/
def base64Decode : List Char → Option (List Nat)
  | [] => some []
  | a :: b :: c :: d :: rest =>
      match charVal a, charVal b with
      | some va, some vb =>
        if c = '=' then
          if d = '=' ∧ rest = [] ∧ vb % 16 = 0 then
            some [va * 4 + vb / 16]
          else none
        else
          match charVal c with
          | some vc =>
            if d = '=' then
              if rest = [] ∧ vc % 4 = 0 then
                some [va * 4 + vb / 16, vb % 16 * 16 + vc / 4]
              else none
            else
              match charVal d, base64Decode rest with
              | some vd, some tail =>
                  some ((va * 4 + vb / 16) :: (vb % 16 * 16 + vc / 4) ::
                        (vc % 4 * 64 + vd) :: tail)
              | _, _ => none
          | none => none
      | _, _ => none
  | _ => none

/-- The closed facial-expression enumeration announced to the model in the
system prompt (line 78). -/
def facialExpressions : List String :=
  ["smile", "sad", "angry", "surprised", "funnyFace", "default"]

/-- The closed animation enumeration announced to the model in the system
prompt (line 79). -/
def animations : List String :=
  ["Talking_0", "Talking_1", "Talking_2", "Crying", "Laughing", "Rumba",
   "Idle", "Terrified", "Angry"]

/-- One invocation of an external enrichment stage for the turn at a given
index: `voice.textToSpeech` (line 99), the ffmpeg transcode (lines 48-51),
or the rhubarb viseme extraction (lines 53-55). -/
inductive Event where
  | tts (i : Nat)
  | ffmpeg (i : Nat)
  | rhubarb (i : Nat)

/-- How a `/chat` request fails; the code propagates the underlying rejected
promise, the constructor records which statement threw and for which turn.
`nullTypeError` is the pre-loop throw: reading `.messages` on a parsed
`null` (line 89) happens before any turn exists. -/
inductive ChatError where
  | synthesisFailed (i : Nat)
  | transcodeFailed (i : Nat)
  | visemeExtractionFailed (i : Nat)
  | audioReadFailed (i : Nat)
  | transcriptReadFailed (i : Nat)
  | typeError (i : Nat)
  | nullTypeError

/-- The external collaborators and the artifact store, abstracted as
per-index outcomes: synthesis is given the `text` property it is called
with (possibly `undefined`), the two shell tools and the two artifact
read-backs either succeed or reject.  `readAudio` yields the bytes of the
synthesized mp3 on disk, `readTranscript` the parsed rhubarb JSON. -/
structure Env where
  tts : Nat → Option Json → Except Unit Unit
  ffmpeg : Nat → Except Unit Unit
  rhubarb : Nat → Except Unit Unit
  readAudio : Nat → Except Unit (List Nat)
  readTranscript : Nat → Except Unit Json

/-- `audioFileToBase64` (lines 117-120): read the artifact bytes and render
them in transport form. -/
def audioFileToBase64 (env : Env) (i : Nat) : Except Unit String :=
  (env.readAudio i).map (fun bs => String.mk (base64EncodeBytes bs))

/-- The body of one loop iteration for a non-null element (lines 95-104):
read `message.text`, synthesize, transcode, extract visemes, then read back
and attach `audio` and `lipsync`.  Returns the trace of external-stage
invocations together with the enriched element or the error that aborted
the iteration.  Attachment on a primitive element throws a `TypeError`
(strict mode). -/
def enrichTurn (env : Env) (i : Nat) (msg : Json) :
    List Event × Except ChatError Json :=
  match env.tts i (getProp msg "text") with
  | .error _ => ([.tts i], .error (.synthesisFailed i))
  | .ok _ =>
    match env.ffmpeg i with
    | .error _ => ([.tts i, .ffmpeg i], .error (.transcodeFailed i))
    | .ok _ =>
      match env.rhubarb i with
      | .error _ =>
          ([.tts i, .ffmpeg i, .rhubarb i], .error (.visemeExtractionFailed i))
      | .ok _ =>
        ([.tts i, .ffmpeg i, .rhubarb i],
          match audioFileToBase64 env i with
          | .error _ => .error (.audioReadFailed i)
          | .ok audio =>
            match assignProp msg "audio" (.str audio) with
            | none => .error (.typeError i)
            | some msg1 =>
              match env.readTranscript i with
              | .error _ => .error (.transcriptReadFailed i)
              | .ok lip =>
                match assignProp msg1 "lipsync" lip with
                | none => .error (.typeError i)
                | some msg2 => .ok msg2)

/-- Whether a value is JavaScript `null` (reading a property of it throws). -/
def isNull : Json → Bool
  | .null => true
  | _ => false

/-- The enrichment `for` loop (lines 94-105) over an arbitrary value, one
recursive call per iteration: read `messages[i]` (a read of `.text` on an
`undefined` or `null` element throws before any stage runs), enrich it, and
write the mutated element back.  `fuel` is the remaining iteration count;
the loop condition re-reads `messages.length` each iteration, but no
iteration changes it, so counting down is equivalent. -/
def runLoop (env : Env) : Json → Nat → Nat → List Event × Except ChatError Json
  | msgs, _, 0 => ([], .ok msgs)
  | msgs, i, fuel + 1 =>
    match jsIndex msgs i with
    | none => ([], .error (.typeError i))
    | some msg =>
      if isNull msg then ([], .error (.typeError i))
      else
        match (enrichTurn env i msg).2 with
        | .error e => ((enrichTurn env i msg).1, .error e)
        | .ok msg1 =>
          ((enrichTurn env i msg).1 ++
             (runLoop env (setIndex msgs i msg1) (i + 1) fuel).1,
           (runLoop env (setIndex msgs i msg1) (i + 1) fuel).2)

/-- The `/chat` handler from the parsed model output on (lines 88-107):
unwrap the wrapper shape, run the enrichment loop, and send the result
under the `messages` field.  An error anywhere leaves the response unsent
(the rejected promise never reaches `res.send`). -/
def chatHandler (env : Env) (parsed : Json) :
    List Event × Except ChatError Json :=
  ((runLoop env (unwrapMessages parsed) 0 (loopBound (unwrapMessages parsed))).1,
   (runLoop env (unwrapMessages parsed) 0 (loopBound (unwrapMessages parsed))).2.map
     (fun final => Json.obj [("messages", final)]))

/-- Lines 88-107 with the parsed-`null` case explicit: in JavaScript a
property read on `null` throws, so a parsed `null` aborts at line 89
(`if (messages.messages)`) with a `TypeError` before the loop and before
any stage runs, and nothing is sent.  Every other parsed value proceeds as
`chatHandler`: after the line-89 guard the looped value can no longer be
`null` (the wrapper field is unwrapped only when truthy, and `null` is
falsy), so `chatHandler` covers all remaining property reads. -/
def chatRequest (env : Env) (parsed : Json) :
    List Event × Except ChatError Json :=
  if isNull parsed then ([], .error .nullTypeError)
  else chatHandler env parsed

/-- The enrichment loop specialised to a list of elements starting at index
`i`: the form the loop takes on an array input, used through a simulation
lemma.  Returns the trace and either the enriched list or the aborting
error. -/
def enrichList (env : Env) : Nat → List Json → List Event × Except ChatError (List Json)
  | _, [] => ([], .ok [])
  | i, m :: ms =>
    if isNull m then ([], .error (.typeError i))
    else
      match (enrichTurn env i m).2 with
      | .error e => ((enrichTurn env i m).1, .error e)
      | .ok m1 =>
        ((enrichTurn env i m).1 ++ (enrichList env (i + 1) ms).1,
         (enrichList env (i + 1) ms).2.map (fun ms1 => m1 :: ms1))

/-- The full external-stage trace of a successful run over `n` turns
starting at index `i`: synthesis, transcode, viseme extraction, in that
order, once each per turn, each turn completed before the next begins. -/
def fullTrace : Nat → Nat → List Event
  | _, 0 => []
  | i, n + 1 => .tts i :: .ffmpeg i :: .rhubarb i :: fullTrace (i + 1) n

/-- Whether a `/chat` run produced a response (`res.send` was reached). -/
def sentOk : Except ChatError Json → Bool
  | .ok _ => true
  | .error _ => false

/-- All five fallible enrichment operations for the turn at index `i`
succeeded: the synthesis call (for some text argument), the transcode, the
viseme extraction, and both artifact read-backs. -/
def stageOutcomesOk (env : Env) (i : Nat) : Prop :=
  (∃ t, env.tts i t = .ok ()) ∧ env.ffmpeg i = .ok () ∧
  env.rhubarb i = .ok () ∧ (∃ bs, env.readAudio i = .ok bs) ∧
  (∃ lip, env.readTranscript i = .ok lip)

/-- An environment in which every external stage and read-back succeeds at
every index, for every text argument. -/
def envAllOk (env : Env) : Prop :=
  (∀ i t, env.tts i t = .ok ()) ∧ (∀ i, env.ffmpeg i = .ok ()) ∧
  (∀ i, env.rhubarb i = .ok ()) ∧ (∀ i, ∃ bs, env.readAudio i = .ok bs) ∧
  (∀ i, ∃ lip, env.readTranscript i = .ok lip)

/-- Whether strict-mode property assignment succeeds on a value: it does on
objects and arrays, it throws on primitives and `null`. -/
def assignable : Json → Bool
  | .obj _ => true
  | .arr _ => true
  | _ => false

/-- The net effect of enrichment on one element: attach an `audio` value
and then a `lipsync` value, touching nothing else. -/
def attachPayload (m a l : Json) : Option Json :=
  match assignProp m "audio" a with
  | none => none
  | some m1 => assignProp m1 "lipsync" l

/-- A concrete environment in which everything succeeds, the synthesized
artifact reads back empty, and the transcript parses to `null`. -/
def okEnv : Env :=
  { tts := fun _ _ => .ok ()
    ffmpeg := fun _ => .ok ()
    rhubarb := fun _ => .ok ()
    readAudio := fun _ => .ok []
    readTranscript := fun _ => .ok .null }

/-- A turn object as the model is instructed to produce it. -/
def mkTurn (t e a : String) : Json :=
  .obj [("text", .str t), ("facialExpression", .str e), ("animation", .str a)]

/-- The enriched form of `mkTurn` under `okEnv`. -/
def mkTurnOut (t e a : String) : Json :=
  .obj [("text", .str t), ("facialExpression", .str e), ("animation", .str a),
        ("audio", .str ""), ("lipsync", .null)]

/-- A parsed model output that is a bare list of five turn objects. -/
def fiveTurnInput : List Json :=
  [mkTurn "one" "smile" "Idle", mkTurn "two" "sad" "Crying",
   mkTurn "three" "angry" "Angry", mkTurn "four" "surprised" "Rumba",
   mkTurn "five" "default" "Idle"]

/-- The five turns as they come back from `okEnv` enrichment. -/
def fiveTurnOutput : List Json :=
  [mkTurnOut "one" "smile" "Idle", mkTurnOut "two" "sad" "Crying",
   mkTurnOut "three" "angry" "Angry", mkTurnOut "four" "surprised" "Rumba",
   mkTurnOut "five" "default" "Idle"]

/-! ## Preservation of untouched fields under property assignment -/

/-- Assigning one field leaves every other field's lookup unchanged. -/
theorem lookupField_setFields_ne : ∀ (fs : List (String × Json)) (k : String)
    (v : Json) (k2 : String), k2 ≠ k →
    lookupField (setFields fs k v) k2 = lookupField fs k2
  | [], k, v, k2, h => by
    simp only [setFields, lookupField, if_neg (Ne.symm h)]
  | (a, b) :: fs, k, v, k2, h => by
    by_cases ha : a = k
    · simp only [setFields, if_pos ha, lookupField, if_neg (Ne.symm h),
        if_neg (ha ▸ Ne.symm h : ¬a = k2)]
    · simp only [setFields, if_neg ha, lookupField]
      by_cases ha2 : a = k2
      · rw [if_pos ha2, if_pos ha2]
      · rw [if_neg ha2, if_neg ha2]
        exact lookupField_setFields_ne fs k v k2 h

/-- A successful property assignment preserves reads of other properties. -/
theorem getProp_assignProp_ne (m : Json) (k : String) (v : Json) (m1 : Json)
    (k2 : String) (hne : k2 ≠ k) (h : assignProp m k v = some m1) :
    getProp m1 k2 = getProp m k2 := by
  cases m with
  | obj fs => cases h; exact lookupField_setFields_ne fs k v k2 hne
  | arr xs => cases h; rfl
  | null => cases h
  | bool b => cases h
  | num n => cases h
  | str s => cases h

/-- Attaching `audio` and `lipsync` preserves every other property. -/
theorem getProp_attachPayload_ne (m a l : Json) (m2 : Json) (k2 : String)
    (h1 : k2 ≠ "audio") (h2 : k2 ≠ "lipsync")
    (h : attachPayload m a l = some m2) :
    getProp m2 k2 = getProp m k2 := by
  unfold attachPayload at h
  cases hm1 : assignProp m "audio" a with
  | none => rw [hm1] at h; cases h
  | some m1 =>
    rw [hm1] at h
    rw [getProp_assignProp_ne m1 "lipsync" l m2 k2 h2 h,
        getProp_assignProp_ne m "audio" a m1 k2 h1 hm1]

/-! ## Unfolding lemmas for the handler on an array input -/

/-- A bare array has no `messages` property, so it is not unwrapped. -/
theorem unwrapMessages_arr (xs : List Json) :
    unwrapMessages (.arr xs) = .arr xs := rfl

/-- The loop over an array runs once per element. -/
theorem loopBound_arr (xs : List Json) : loopBound (.arr xs) = xs.length := rfl

/-- Inversion of a successful iteration body: every stage and read-back
succeeded and the result is the element with `audio` and `lipsync`
attached. -/
theorem enrichTurn_ok (env : Env) (i : Nat) (msg : Json) (m2 : Json)
    (h : (enrichTurn env i msg).2 = .ok m2) :
    env.tts i (getProp msg "text") = .ok () ∧ env.ffmpeg i = .ok () ∧
    env.rhubarb i = .ok () ∧
    ∃ bs lip, env.readAudio i = .ok bs ∧ env.readTranscript i = .ok lip ∧
      attachPayload msg (.str (String.mk (base64EncodeBytes bs))) lip = some m2 := by
  cases htts : env.tts i (getProp msg "text") with
  | error e => simp [enrichTurn, htts] at h
  | ok u =>
    cases u
    cases hff : env.ffmpeg i with
    | error e => simp [enrichTurn, htts, hff] at h
    | ok u =>
      cases u
      cases hrh : env.rhubarb i with
      | error e => simp [enrichTurn, htts, hff, hrh] at h
      | ok u =>
        cases u
        cases hra : env.readAudio i with
        | error e =>
            simp [enrichTurn, audioFileToBase64, Except.map, htts, hff, hrh,
              hra] at h
        | ok bs =>
          cases hap : assignProp msg "audio" (.str (String.mk (base64EncodeBytes bs))) with
          | none =>
              simp [enrichTurn, audioFileToBase64, Except.map, String.mk,
                htts, hff, hrh, hra, hap] at h
          | some m1 =>
            cases hrt : env.readTranscript i with
            | error e =>
                simp [enrichTurn, audioFileToBase64, Except.map, String.mk,
                  htts, hff, hrh, hra, hap, hrt] at h
            | ok lip =>
              cases hal : assignProp m1 "lipsync" lip with
              | none =>
                  simp [enrichTurn, audioFileToBase64, Except.map, String.mk,
                    htts, hff, hrh, hra, hap, hal, hrt] at h
              | some m3 =>
                have hm : m3 = m2 := by
                  simp [enrichTurn, audioFileToBase64, Except.map, String.mk,
                    htts, hff, hrh, hra, hap, hal, hrt] at h
                  exact h
                subst hm
                exact ⟨rfl, rfl, rfl, bs, lip, rfl, rfl, by
                  unfold attachPayload
                  rw [hap]
                  exact hal⟩

/-- A successful iteration invokes exactly the three external stages, in
pipeline order. -/
theorem enrichTurn_ok_trace (env : Env) (i : Nat) (msg : Json) (m2 : Json)
    (h : (enrichTurn env i msg).2 = .ok m2) :
    (enrichTurn env i msg).1 = [.tts i, .ffmpeg i, .rhubarb i] := by
  obtain ⟨htts, hff, hrh, -⟩ := enrichTurn_ok env i msg m2 h
  simp [enrichTurn, htts, hff, hrh]

/-! ## The loop on an array input, via the list form -/

/-- Unfolding: a `null` head throws before any stage runs. -/
theorem enrichList_cons_null (env : Env) (i : Nat) (m : Json) (ms : List Json)
    (hn : isNull m = true) :
    enrichList env i (m :: ms) = ([], .error (.typeError i)) := by
  simp [enrichList, hn]

/-- Unfolding: a failed head iteration aborts the loop with its error. -/
theorem enrichList_cons_error (env : Env) (i : Nat) (m : Json) (ms : List Json)
    (e : ChatError) (hn : isNull m = false)
    (hr : (enrichTurn env i m).2 = .error e) :
    enrichList env i (m :: ms) = ((enrichTurn env i m).1, .error e) := by
  simp [enrichList, hn, hr]

/-- Unfolding: a successful head iteration prepends its events and element. -/
theorem enrichList_cons_ok (env : Env) (i : Nat) (m : Json) (ms : List Json)
    (m1 : Json) (hn : isNull m = false) (hr : (enrichTurn env i m).2 = .ok m1) :
    enrichList env i (m :: ms) =
      ((enrichTurn env i m).1 ++ (enrichList env (i + 1) ms).1,
       (enrichList env (i + 1) ms).2.map (fun ms1 => m1 :: ms1)) := by
  simp [enrichList, hn, hr]

/-- A successful loop yields one output element per input element. -/
theorem enrichList_ok_length : ∀ (env : Env) (i : Nat) (ms : List Json)
    (ys : List Json), (enrichList env i ms).2 = .ok ys → ys.length = ms.length
  | env, i, [], ys, h => by
    cases h
    rfl
  | env, i, m :: ms, ys, h => by
    cases hn : isNull m with
    | true => rw [enrichList_cons_null env i m ms hn] at h; cases h
    | false =>
      cases hr : (enrichTurn env i m).2 with
      | error e => rw [enrichList_cons_error env i m ms e hn hr] at h; cases h
      | ok m1 =>
        rw [enrichList_cons_ok env i m ms m1 hn hr] at h
        cases hrest : (enrichList env (i + 1) ms).2 with
        | error e => rw [hrest] at h; cases h
        | ok ys1 =>
          rw [hrest] at h
          cases h
          simp only [List.length_cons]
          rw [enrichList_ok_length env (i + 1) ms ys1 hrest]

/-- A successful loop invokes the three stages in pipeline order, once per
turn, finishing each turn before starting the next. -/
theorem enrichList_ok_trace : ∀ (env : Env) (i : Nat) (ms : List Json)
    (ys : List Json), (enrichList env i ms).2 = .ok ys →
    (enrichList env i ms).1 = fullTrace i ms.length
  | env, i, [], ys, _ => rfl
  | env, i, m :: ms, ys, h => by
    cases hn : isNull m with
    | true => rw [enrichList_cons_null env i m ms hn] at h; cases h
    | false =>
      cases hr : (enrichTurn env i m).2 with
      | error e => rw [enrichList_cons_error env i m ms e hn hr] at h; cases h
      | ok m1 =>
        rw [enrichList_cons_ok env i m ms m1 hn hr] at h ⊢
        cases hrest : (enrichList env (i + 1) ms).2 with
        | error e => rw [hrest] at h; cases h
        | ok ys1 =>
          simp only [List.length_cons, fullTrace]
          rw [enrichTurn_ok_trace env i m m1 hr,
              enrichList_ok_trace env (i + 1) ms ys1 hrest]
          rfl

/-- A successful loop implies every stage succeeded at every iterated
index. -/
theorem enrichList_ok_stages : ∀ (env : Env) (i : Nat) (ms : List Json)
    (ys : List Json), (enrichList env i ms).2 = .ok ys →
    ∀ j, j < ms.length → stageOutcomesOk env (i + j)
  | env, i, [], ys, h => by intro j hj; cases hj
  | env, i, m :: ms, ys, h => by
    cases hn : isNull m with
    | true => rw [enrichList_cons_null env i m ms hn] at h; cases h
    | false =>
      cases hr : (enrichTurn env i m).2 with
      | error e => rw [enrichList_cons_error env i m ms e hn hr] at h; cases h
      | ok m1 =>
        rw [enrichList_cons_ok env i m ms m1 hn hr] at h
        cases hrest : (enrichList env (i + 1) ms).2 with
        | error e => rw [hrest] at h; cases h
        | ok ys1 =>
          intro j hj
          cases j with
          | zero =>
            obtain ⟨htts, hff, hrh, bs, lip, hra, hrt, -⟩ :=
              enrichTurn_ok env i m m1 hr
            exact ⟨⟨_, htts⟩, hff, hrh, ⟨bs, hra⟩, ⟨lip, hrt⟩⟩
          | succ j =>
            have := enrichList_ok_stages env (i + 1) ms ys1 hrest j
              (by simp at hj; omega)
            rw [show i + (j + 1) = i + 1 + j by omega]
            exact this

/-- A successful loop only attaches `audio` and `lipsync` to each element,
in place. -/
theorem enrichList_ok_frame : ∀ (env : Env) (i : Nat) (ms : List Json)
    (ys : List Json), (enrichList env i ms).2 = .ok ys →
    ∀ j (hj : j < ms.length) (hj2 : j < ys.length),
      ∃ a l, attachPayload (ms.get ⟨j, hj⟩) a l = some (ys.get ⟨j, hj2⟩)
  | env, i, [], ys, h => by intro j hj; cases hj
  | env, i, m :: ms, ys, h => by
    cases hn : isNull m with
    | true => rw [enrichList_cons_null env i m ms hn] at h; cases h
    | false =>
      cases hr : (enrichTurn env i m).2 with
      | error e => rw [enrichList_cons_error env i m ms e hn hr] at h; cases h
      | ok m1 =>
        rw [enrichList_cons_ok env i m ms m1 hn hr] at h
        cases hrest : (enrichList env (i + 1) ms).2 with
        | error e => rw [hrest] at h; cases h
        | ok ys1 =>
          rw [hrest] at h
          cases h
          intro j hj hj2
          cases j with
          | zero =>
            obtain ⟨-, -, -, bs, lip, -, -, hat⟩ := enrichTurn_ok env i m m1 hr
            exact ⟨_, _, hat⟩
          | succ j =>
            exact enrichList_ok_frame env (i + 1) ms ys1 hrest j
              (by simp at hj; omega) (by simp at hj2; omega)

/-- Reading the slot just past a prefix yields the element placed there. -/
theorem get?_at_length : ∀ (pre : List Json) (m : Json) (rest : List Json),
    (pre ++ m :: rest).get? pre.length = some m
  | [], _, _ => rfl
  | _ :: pre, m, rest => get?_at_length pre m rest

/-- Writing the slot just past a prefix replaces the element there. -/
theorem set_at_length : ∀ (pre : List Json) (m m1 : Json) (rest : List Json),
    (pre ++ m :: rest).set pre.length m1 = pre ++ m1 :: rest
  | [], _, _, _ => rfl
  | p :: pre, m, m1, rest => congrArg (p :: ·) (set_at_length pre m m1 rest)

/-- The indexed loop on an array coincides with the list form: each
iteration touches only its own slot, so in-place updates do not disturb the
iteration. -/
theorem runLoop_arr (env : Env) : ∀ (rest pre : List Json),
    runLoop env (.arr (pre ++ rest)) pre.length rest.length =
      ((enrichList env pre.length rest).1,
       (enrichList env pre.length rest).2.map (fun ms => Json.arr (pre ++ ms)))
  | [], pre => by
    simp only [List.append_nil, List.length_nil, runLoop, enrichList, Except.map]
  | m :: rest, pre => by
    have hidx : jsIndex (.arr (pre ++ m :: rest)) pre.length = some m :=
      get?_at_length pre m rest
    cases hn : isNull m with
    | true =>
      simp only [List.length_cons, runLoop, hidx, if_pos hn,
        enrichList_cons_null env pre.length m rest hn, Except.map]
    | false =>
      cases hr : (enrichTurn env pre.length m).2 with
      | error e =>
        simp only [List.length_cons, runLoop, hidx, hn, Bool.false_eq_true,
          if_false, hr, enrichList_cons_error env pre.length m rest e hn hr,
          Except.map]
      | ok m1 =>
        have hset : setIndex (.arr (pre ++ m :: rest)) pre.length m1 =
            .arr ((pre ++ [m1]) ++ rest) := by
          simp only [setIndex, set_at_length pre m m1 rest, List.append_assoc,
            List.singleton_append]
        have hlen : pre.length + 1 = (pre ++ [m1]).length := by simp
        have ih := runLoop_arr env rest (pre ++ [m1])
        simp only [List.length_cons, runLoop, hidx, hn, Bool.false_eq_true,
          if_false, hr, hset, enrichList_cons_ok env pre.length m rest m1 hn hr]
        rw [hlen, ih]
        cases hrest : (enrichList env (pre ++ [m1]).length rest).2 with
        | error e => simp [Except.map]
        | ok ys1 => simp [Except.map]

/-- The whole handler on a bare-array model output, in list form. -/
theorem chatHandler_arr (env : Env) (xs : List Json) :
    chatHandler env (.arr xs) =
      ((enrichList env 0 xs).1,
       (enrichList env 0 xs).2.map
         (fun ms => Json.obj [("messages", Json.arr ms)])) := by
  have h := runLoop_arr env xs []
  simp only [List.nil_append, List.length_nil] at h
  unfold chatHandler
  rw [unwrapMessages_arr, loopBound_arr, h]
  cases (enrichList env 0 xs).2 <;> simp [Except.map]

/-! ## Base64 round trip -/

/-- Decoding a digit recovers its 6-bit value. -/
theorem charVal_b64Char : ∀ n < 64, charVal (b64Char n) = some n := by decide

/-- No base64 digit is the padding character. -/
theorem b64Char_ne_pad : ∀ n < 64, b64Char n ≠ '=' := by decide

/-- Length-bounded induction for the round trip, three bytes per step. -/
theorem base64_roundtrip_aux : ∀ (n : Nat) (bs : List Nat), bs.length ≤ n →
    (∀ b ∈ bs, b < 256) → base64Decode (base64EncodeBytes bs) = some bs := by
  intro n
  induction n with
  | zero =>
    intro bs hlen _
    have hnil : bs = [] := List.eq_nil_of_length_eq_zero (Nat.le_zero.mp hlen)
    subst hnil
    rfl
  | succ n ih =>
    intro bs hlen hb
    match bs with
    | [] => rfl
    | [b0] =>
      have h0 : b0 < 256 := hb b0 (by simp)
      have h1 : b0 / 4 < 64 := by omega
      have h2 : b0 % 4 * 16 < 64 := by omega
      have e1 : b0 % 4 * 16 % 16 = 0 := by omega
      have e2 : b0 / 4 * 4 + b0 % 4 * 16 / 16 = b0 := by omega
      simp only [base64EncodeBytes, base64Decode, charVal_b64Char _ h1,
        charVal_b64Char _ h2]
      simp [e1]
      omega
    | [b0, b1] =>
      have h0 : b0 < 256 := hb b0 (by simp)
      have hb1 : b1 < 256 := hb b1 (by simp)
      have h1 : b0 / 4 < 64 := by omega
      have h2 : b0 % 4 * 16 + b1 / 16 < 64 := by omega
      have h3 : b1 % 16 * 4 < 64 := by omega
      have e1 : b1 % 16 * 4 % 4 = 0 := by omega
      have e2 : b0 / 4 * 4 + (b0 % 4 * 16 + b1 / 16) / 16 = b0 := by omega
      have e3 : (b0 % 4 * 16 + b1 / 16) % 16 * 16 + b1 % 16 * 4 / 4 = b1 := by
        omega
      simp only [base64EncodeBytes, base64Decode, charVal_b64Char _ h1,
        charVal_b64Char _ h2, charVal_b64Char _ h3,
        if_neg (b64Char_ne_pad _ h3)]
      simp [e1]
      omega
    | b0 :: b1 :: b2 :: rest =>
      have h0 : b0 < 256 := hb b0 (by simp)
      have hb1 : b1 < 256 := hb b1 (by simp)
      have hb2 : b2 < 256 := hb b2 (by simp)
      have h1 : b0 / 4 < 64 := by omega
      have h2 : b0 % 4 * 16 + b1 / 16 < 64 := by omega
      have h3 : b1 % 16 * 4 + b2 / 64 < 64 := by omega
      have h4 : b2 % 64 < 64 := by omega
      have hrest : base64Decode (base64EncodeBytes rest) = some rest := by
        apply ih rest
        · simp at hlen; omega
        · intro b hbm; exact hb b (by simp [hbm])
      have e2 : b0 / 4 * 4 + (b0 % 4 * 16 + b1 / 16) / 16 = b0 := by omega
      have e3 : (b0 % 4 * 16 + b1 / 16) % 16 * 16 + (b1 % 16 * 4 + b2 / 64) / 4 = b1 := by
        omega
      have e4 : (b1 % 16 * 4 + b2 / 64) % 4 * 64 + b2 % 64 = b2 := by omega
      show base64Decode
        (b64Char (b0 / 4) :: b64Char (b0 % 4 * 16 + b1 / 16) ::
         b64Char (b1 % 16 * 4 + b2 / 64) :: b64Char (b2 % 64) ::
         base64EncodeBytes rest) = some (b0 :: b1 :: b2 :: rest)
      simp only [base64Decode, charVal_b64Char _ h1, charVal_b64Char _ h2,
        charVal_b64Char _ h3, charVal_b64Char _ h4,
        if_neg (b64Char_ne_pad _ h3), if_neg (b64Char_ne_pad _ h4), hrest]
      simp
      omega
/-- Decoding an encoded byte sequence recovers it exactly. -/
theorem base64_roundtrip (bs : List Nat) (hb : ∀ b ∈ bs, b < 256) :
    base64Decode (base64EncodeBytes bs) = some bs :=
  base64_roundtrip_aux bs.length bs le_rfl hb

/-! ## Loop-level consequences on arbitrary inputs -/

/-- Unfolding: an out-of-range read throws before any stage runs. -/
theorem runLoop_succ_none (env : Env) (msgs : Json) (i fuel : Nat)
    (h : jsIndex msgs i = none) :
    runLoop env msgs i (fuel + 1) = ([], .error (.typeError i)) := by
  simp [runLoop, h]

/-- Unfolding: a `null` element throws before any stage runs. -/
theorem runLoop_succ_null (env : Env) (msgs : Json) (i fuel : Nat) (msg : Json)
    (h : jsIndex msgs i = some msg) (hn : isNull msg = true) :
    runLoop env msgs i (fuel + 1) = ([], .error (.typeError i)) := by
  simp [runLoop, h, hn]

/-- Unfolding: a failed iteration aborts the loop with its error. -/
theorem runLoop_succ_error (env : Env) (msgs : Json) (i fuel : Nat) (msg : Json)
    (e : ChatError) (h : jsIndex msgs i = some msg) (hn : isNull msg = false)
    (hr : (enrichTurn env i msg).2 = .error e) :
    runLoop env msgs i (fuel + 1) = ((enrichTurn env i msg).1, .error e) := by
  simp [runLoop, h, hn, hr]

/-- Unfolding: a successful iteration writes back and continues. -/
theorem runLoop_succ_ok (env : Env) (msgs : Json) (i fuel : Nat) (msg msg1 : Json)
    (h : jsIndex msgs i = some msg) (hn : isNull msg = false)
    (hr : (enrichTurn env i msg).2 = .ok msg1) :
    runLoop env msgs i (fuel + 1) =
      ((enrichTurn env i msg).1 ++
         (runLoop env (setIndex msgs i msg1) (i + 1) fuel).1,
       (runLoop env (setIndex msgs i msg1) (i + 1) fuel).2) := by
  simp [runLoop, h, hn, hr]

/-- On any input value whatsoever, a loop run that reaches the response
implies every stage succeeded at every iterated index. -/
theorem runLoop_ok_stages : ∀ (fuel : Nat) (env : Env) (msgs : Json) (i : Nat),
    sentOk (runLoop env msgs i fuel).2 = true →
    ∀ j, j < fuel → stageOutcomesOk env (i + j) := by
  intro fuel
  induction fuel with
  | zero => intro env msgs i h j hj; cases hj
  | succ fuel ih =>
    intro env msgs i h j hj
    cases hidx : jsIndex msgs i with
    | none => rw [runLoop_succ_none env msgs i fuel hidx] at h; cases h
    | some msg =>
      cases hn : isNull msg with
      | true => rw [runLoop_succ_null env msgs i fuel msg hidx hn] at h; cases h
      | false =>
        cases hr : (enrichTurn env i msg).2 with
        | error e =>
          rw [runLoop_succ_error env msgs i fuel msg e hidx hn hr] at h
          cases h
        | ok msg1 =>
          rw [runLoop_succ_ok env msgs i fuel msg msg1 hidx hn hr] at h
          cases j with
          | zero =>
            obtain ⟨htts, hff, hrh, bs, lip, hra, hrt, -⟩ :=
              enrichTurn_ok env i msg msg1 hr
            exact ⟨⟨_, htts⟩, hff, hrh, ⟨bs, hra⟩, ⟨lip, hrt⟩⟩
          | succ j =>
            have := ih env (setIndex msgs i msg1) (i + 1) h j (by omega)
            rw [show i + (j + 1) = i + 1 + j by omega]
            exact this

/-- When every collaborator succeeds, enrichment of an object or array
element succeeds. -/
theorem enrichTurn_succeeds (env : Env) (hok : envAllOk env) (i : Nat)
    (msg : Json) (ha : assignable msg = true) :
    ∃ m2, (enrichTurn env i msg).2 = .ok m2 := by
  obtain ⟨htts, hff, hrh, hra, hrt⟩ := hok
  obtain ⟨bs, hbs⟩ := hra i
  obtain ⟨lip, hlip⟩ := hrt i
  cases msg with
  | obj fs =>
    refine ⟨Json.obj (setFields (setFields fs "audio"
      (.str (String.mk (base64EncodeBytes bs)))) "lipsync" lip), ?_⟩
    simp only [enrichTurn, audioFileToBase64, htts i _, hff i, hrh i, hbs,
      hlip, Except.map, assignProp]
  | arr zs =>
    refine ⟨Json.arr zs, ?_⟩
    simp only [enrichTurn, audioFileToBase64, htts i _, hff i, hrh i, hbs,
      hlip, Except.map, assignProp]
  | null => cases ha
  | bool b => cases ha
  | num n => cases ha
  | str s => cases ha

/-- Assignable values are not `null`. -/
theorem assignable_not_null (m : Json) (ha : assignable m = true) :
    isNull m = false := by
  cases m <;> first | rfl | cases ha

/-- When every collaborator succeeds and every element accepts property
assignment, the whole loop succeeds with one output per input. -/
theorem enrichList_succeeds : ∀ (env : Env) (i : Nat) (ms : List Json),
    envAllOk env → (∀ x ∈ ms, assignable x = true) →
    ∃ ys, (enrichList env i ms).2 = .ok ys ∧ ys.length = ms.length
  | env, i, [], _, _ => ⟨[], rfl, rfl⟩
  | env, i, m :: ms, hok, ha => by
    have ham : assignable m = true := ha m (by simp)
    obtain ⟨m1, hm1⟩ := enrichTurn_succeeds env hok i m ham
    obtain ⟨ys, hys, hlen⟩ := enrichList_succeeds env (i + 1) ms hok
      (fun x hx => ha x (by simp [hx]))
    refine ⟨m1 :: ys, ?_, by simp [hlen]⟩
    rw [enrichList_cons_ok env i m ms m1 (assignable_not_null m ham) hm1]
    simp [hys, Except.map]

/-! ## Claims -/

/-- A parsed value that is neither an array nor a wrapper. -/
def strayValue : Json := .obj [("status", .str "ok")]

/-- A single well-formed turn, the spec scenario input. -/
def oneTurnList : List Json := [mkTurn "hi there" "smile" "Talking_0"]

/-- A three-turn batch, the spec sequencing scenario. -/
def threeTurnList : List Json :=
  [mkTurn "one" "smile" "Talking_0", mkTurn "two" "sad" "Crying",
   mkTurn "three" "default" "Idle"]

/-- An all-success environment whose artifact bytes spell `Hi!`. -/
def hiEnv : Env := { okEnv with readAudio := fun _ => .ok [72, 105, 33] }

/-- A turn with values outside both closed enumerations. -/
def badTurn : Json := mkTurn "hi" "zebra" "Flying"

/-- `badTurn` after `okEnv` enrichment. -/
def badTurnOut : Json := mkTurnOut "hi" "zebra" "Flying"

/-- A turn with no expression and no animation. -/
def bareTurn : Json := .obj [("text", .str "yo")]

/-- `bareTurn` after `okEnv` enrichment. -/
def bareTurnOut : Json :=
  .obj [("text", .str "yo"), ("audio", .str ""), ("lipsync", .null)]

/-- C1, counterexample: the handler enforces no cap.  A bare list of five
turn objects, with every enrichment stage succeeding, produces a response
holding all five turns — not three, and not a rejection. -/
theorem C1_counterexample :
    (chatHandler okEnv (.arr fiveTurnInput)).2 =
      .ok (.obj [("messages", .arr fiveTurnOutput)]) ∧
    fiveTurnInput.length = 5 ∧ fiveTurnOutput.length = 5 ∧
    fiveTurnOutput.length ≠ 3 :=
  ⟨rfl, rfl, rfl, by decide⟩

/-- C1, amended: the Turn Normalizer applies no bound at all.  For every
list of assignable turn objects, when every collaborator succeeds, the
response contains exactly one turn per input turn, whatever the input
length. -/
theorem C1_amended_no_cap (env : Env) (xs : List Json) (hok : envAllOk env)
    (ha : ∀ x ∈ xs, assignable x = true) :
    ∃ ys : List Json, (chatHandler env (.arr xs)).2 =
      .ok (.obj [("messages", .arr ys)]) ∧ ys.length = xs.length := by
  obtain ⟨ys, hys, hlen⟩ := enrichList_succeeds env 0 xs hok ha
  refine ⟨ys, ?_, hlen⟩
  rw [chatHandler_arr, hys]
  rfl

/-- `okEnv` satisfies the all-success predicate. -/
theorem okEnv_allOk : envAllOk okEnv :=
  ⟨fun _ _ => rfl, fun _ => rfl, fun _ => rfl,
   fun _ => ⟨[], rfl⟩, fun _ => ⟨.null, rfl⟩⟩

/-- C1 witness. -/
theorem C1_amended_witness :
    ∃ ys : List Json, (chatHandler okEnv (.arr fiveTurnInput)).2 =
      .ok (.obj [("messages", .arr ys)]) ∧ ys.length = fiveTurnInput.length :=
  C1_amended_no_cap okEnv fiveTurnInput okEnv_allOk (by decide)

/-- C2, counterexample: an unrecognized `facialExpression` (`zebra`) and
`animation` (`Flying`) are forwarded verbatim to the caller, and a turn
missing both fields keeps them missing — neither rejection nor substitution
of the documented defaults happens. -/
theorem C2_counterexample :
    (chatHandler okEnv (.arr [badTurn, bareTurn])).2 =
      .ok (.obj [("messages", .arr [badTurnOut, bareTurnOut])]) ∧
    getProp badTurnOut "facialExpression" = some (.str "zebra") ∧
    "zebra" ∉ facialExpressions ∧
    getProp badTurnOut "animation" = some (.str "Flying") ∧
    "Flying" ∉ animations ∧
    getProp bareTurnOut "facialExpression" = none ∧
    getProp bareTurnOut "animation" = none :=
  ⟨rfl, rfl, by decide, rfl, by decide, rfl, rfl⟩

/-- C2, amended: the pipeline performs no validation of `facialExpression`
or `animation` at all.  Whatever those fields hold (inside or outside the
closed enumerations, or absent), a successfully enriched turn carries them
through unchanged. -/
theorem C2_amended_no_validation (env : Env) (i : Nat)
    (fs : List (String × Json)) (m2 : Json)
    (h : (enrichTurn env i (.obj fs)).2 = .ok m2) :
    getProp m2 "facialExpression" = lookupField fs "facialExpression" ∧
    getProp m2 "animation" = lookupField fs "animation" := by
  obtain ⟨-, -, -, bs, lip, -, -, hat⟩ := enrichTurn_ok env i (.obj fs) m2 h
  exact ⟨getProp_attachPayload_ne _ _ _ _ _ (by decide) (by decide) hat,
         getProp_attachPayload_ne _ _ _ _ _ (by decide) (by decide) hat⟩

/-- C2 witness. -/
theorem C2_amended_witness :
    getProp (.obj [("text", .str "hi"), ("facialExpression", .str "zebra"),
        ("animation", .str "Flying"), ("audio", .str ""), ("lipsync", .null)])
      "facialExpression" =
      lookupField [("text", .str "hi"), ("facialExpression", .str "zebra"),
        ("animation", .str "Flying")] "facialExpression" ∧
    getProp (.obj [("text", .str "hi"), ("facialExpression", .str "zebra"),
        ("animation", .str "Flying"), ("audio", .str ""), ("lipsync", .null)])
      "animation" =
      lookupField [("text", .str "hi"), ("facialExpression", .str "zebra"),
        ("animation", .str "Flying")] "animation" :=
  C2_amended_no_validation okEnv 0
    [("text", .str "hi"), ("facialExpression", .str "zebra"),
     ("animation", .str "Flying")] _ rfl

/-- C3: all-or-nothing enrichment.  Whenever the handler reaches the
response (`res.send`), every enrichment stage — synthesis, transcode,
viseme extraction and both artifact read-backs — succeeded at every
iterated turn index; contrapositively, a failure at any stage of any turn
means no response containing any turn is produced, and no turn's audio or
lipsync is ever substituted with empty data. -/
theorem C3_all_or_nothing (env : Env) (parsed : Json)
    (h : sentOk (chatHandler env parsed).2 = true) :
    ∀ i, i < loopBound (unwrapMessages parsed) → stageOutcomesOk env i := by
  have h2 : sentOk (runLoop env (unwrapMessages parsed) 0
      (loopBound (unwrapMessages parsed))).2 = true := by
    unfold chatHandler at h
    cases hr : (runLoop env (unwrapMessages parsed) 0
        (loopBound (unwrapMessages parsed))).2 with
    | ok v => rfl
    | error e => rw [hr] at h; simp [Except.map, sentOk] at h
  intro i hi
  have := runLoop_ok_stages (loopBound (unwrapMessages parsed)) env
    (unwrapMessages parsed) 0 h2 i hi
  simpa using this

/-- C3 witness. -/
theorem C3_witness : stageOutcomesOk okEnv 0 :=
  C3_all_or_nothing okEnv (.arr oneTurnList) rfl 0 (by decide)

/-- C4: strict sequential enrichment.  On a batch that completes, the trace
of external-stage invocations is exactly synthesis, transcode, viseme
extraction for turn 0, then for turn 1, and so on — once each per turn,
with each turn's extraction finished before the next turn's synthesis
starts. -/
theorem C4_strict_sequencing (env : Env) (xs : List Json)
    (h : sentOk (chatHandler env (.arr xs)).2 = true) :
    (chatHandler env (.arr xs)).1 = fullTrace 0 xs.length := by
  rw [chatHandler_arr] at h ⊢
  cases hr : (enrichList env 0 xs).2 with
  | error e => rw [hr] at h; simp [Except.map, sentOk] at h
  | ok ys => exact enrichList_ok_trace env 0 xs ys hr

/-- C4 witness. -/
theorem C4_witness :
    (chatHandler okEnv (.arr threeTurnList)).1 =
      fullTrace 0 threeTurnList.length :=
  C4_strict_sequencing okEnv threeTurnList rfl

/-- C5: for a valid model output shaped either as a bare ordered list or as
a wrapper object whose `messages` field holds that list, the Turn
Normalizer yields exactly the input list — order and length preserved
(no cap is applied, so the length always equals the input length). -/
theorem C5_normalizer_preserves (xs : List Json) (v : Json)
    (h : v = Json.arr xs ∨ getProp v "messages" = some (Json.arr xs)) :
    unwrapMessages v = Json.arr xs := by
  cases h with
  | inl h => subst h; exact unwrapMessages_arr xs
  | inr h => unfold unwrapMessages; rw [h]; rfl

/-- C5 witness. -/
theorem C5_witness :
    unwrapMessages (Json.obj [("messages", Json.arr oneTurnList)]) =
      Json.arr oneTurnList :=
  C5_normalizer_preserves oneTurnList _ (Or.inr rfl)

/-- C6, counterexample: a parsed value that is neither a sequence nor a
wrapper holding one — here `{status: "ok"}` — is not rejected with any
shape error; the handler returns it verbatim inside the response. -/
theorem C6_counterexample :
    chatHandler okEnv strayValue = ([], .ok (.obj [("messages", strayValue)])) ∧
    sentOk (chatHandler okEnv strayValue).2 = true :=
  ⟨rfl, rfl⟩

/-- C6, amended: no shape check and no `UnrecognizedShape` error exist.
For a parsed value with no `messages` field and no `length` property,
either it is `null` — then the wrapper-field read at line 89 throws a
`TypeError` and the request aborts before any stage runs, with nothing
sent — or it is any other value, and it skips the enrichment loop entirely
(zero iterations, empty trace) and is forwarded unchanged in the
`messages` field of the response. -/
theorem C6_amended_no_shape_check (env : Env) (v : Json)
    (h1 : getProp v "messages" = none) (h2 : getProp v "length" = none) :
    (isNull v = true →
      chatRequest env v = ([], .error .nullTypeError)) ∧
    (isNull v = false →
      chatRequest env v = ([], .ok (.obj [("messages", v)]))) := by
  have hu : unwrapMessages v = v := by unfold unwrapMessages; rw [h1]
  have hl : loopBound v = 0 := by unfold loopBound; rw [h2]
  constructor
  · intro hn
    simp [chatRequest, hn]
  · intro hn
    simp only [chatRequest, hn, Bool.false_eq_true, if_false]
    unfold chatHandler
    rw [hu, hl]
    rfl

/-- C6 witness, exercising both branches: a parsed `null` aborts unsent,
a parsed number is forwarded unchanged. -/
theorem C6_amended_witness :
    ((isNull Json.null = true →
        chatRequest okEnv Json.null = ([], .error .nullTypeError)) ∧
     (isNull Json.null = false →
        chatRequest okEnv Json.null = ([], .ok (.obj [("messages", Json.null)])))) ∧
    ((isNull (Json.num 42) = true →
        chatRequest okEnv (.num 42) = ([], .error .nullTypeError)) ∧
     (isNull (Json.num 42) = false →
        chatRequest okEnv (.num 42) = ([], .ok (.obj [("messages", .num 42)])))) :=
  ⟨C6_amended_no_shape_check okEnv Json.null rfl rfl,
   C6_amended_no_shape_check okEnv (.num 42) rfl rfl⟩

/-- C7, counterexample: the final payload's field is named `messages`, not
`turns`: a fully enriched batch yields a payload with no `turns` property
and the enriched list under `messages`. -/
theorem C7_counterexample :
    (chatHandler okEnv (.arr oneTurnList)).2 =
      .ok (.obj [("messages",
        .arr [mkTurnOut "hi there" "smile" "Talking_0"])]) ∧
    getProp (.obj [("messages",
        .arr [mkTurnOut "hi there" "smile" "Talking_0"])]) "turns" = none ∧
    getProp (.obj [("messages",
        .arr [mkTurnOut "hi there" "smile" "Talking_0"])]) "messages" =
      some (.arr [mkTurnOut "hi there" "smile" "Talking_0"]) :=
  ⟨rfl, rfl, rfl⟩

/-- C7, amended: the Response Assembler wraps the enriched value verbatim
under the stable field name `messages` (the `{ turns: [...] }` of the claim
is actually `{ messages: [...] }`), applying no other transformation. -/
theorem C7_amended_messages_field (env : Env) (parsed : Json) (ms : Json)
    (h : (runLoop env (unwrapMessages parsed) 0
      (loopBound (unwrapMessages parsed))).2 = .ok ms) :
    (chatHandler env parsed).2 = .ok (.obj [("messages", ms)]) := by
  unfold chatHandler
  rw [h]
  rfl

/-- C7 witness. -/
theorem C7_amended_witness :
    (chatHandler okEnv (.arr oneTurnList)).2 =
      .ok (.obj [("messages",
        .arr [mkTurnOut "hi there" "smile" "Talking_0"])]) :=
  C7_amended_messages_field okEnv (.arr oneTurnList) _ rfl

/-- C8: transport encoding round trip.  `audioFileToBase64` renders the
artifact bytes in base64, and decoding that rendering recovers the on-disk
bytes exactly. -/
theorem C8_audio_roundtrip (env : Env) (i : Nat) (bs : List Nat)
    (hread : env.readAudio i = .ok bs) (hbytes : ∀ b ∈ bs, b < 256) :
    audioFileToBase64 env i = .ok (String.mk (base64EncodeBytes bs)) ∧
    base64Decode (base64EncodeBytes bs) = some bs := by
  constructor
  · unfold audioFileToBase64
    rw [hread]
    rfl
  · exact base64_roundtrip bs hbytes

/-- C8 witness. -/
theorem C8_witness :
    audioFileToBase64 hiEnv 0 =
      .ok (String.mk (base64EncodeBytes [72, 105, 33])) ∧
    base64Decode (base64EncodeBytes [72, 105, 33]) = some [72, 105, 33] :=
  C8_audio_roundtrip hiEnv 0 [72, 105, 33] rfl (by decide)

/-- C9: when the inbound `message` field is absent, empty, or otherwise
falsy, the chat-completion collaborator is invoked with the user content
`Hello` instead; the handler performs no validation, so the request is not
rejected. -/
theorem C9_falsy_message_hello (body : Json)
    (h : truthyOpt (getProp body "message") = false) :
    userContent body = Json.str "Hello" := by
  unfold userContent jsOr
  cases hm : getProp body "message" with
  | none => rfl
  | some v =>
    rw [hm] at h
    simp only [truthyOpt] at h
    simp [h]

/-- C9 witness. -/
theorem C9_witness :
    userContent (Json.obj [("message", Json.str "")]) = Json.str "Hello" :=
  C9_falsy_message_hello (Json.obj [("message", Json.str "")]) rfl

/-- C10: enrichment is a frame update.  When the handler succeeds on a
batch, the response has one turn per input turn in the same positions, each
obtained from its input turn purely by attaching `audio` and `lipsync`;
`text`, `facialExpression` and `animation` read back unchanged. -/
theorem C10_enrichment_frame (env : Env) (xs ys : List Json)
    (h : (chatHandler env (.arr xs)).2 = .ok (.obj [("messages", .arr ys)])) :
    ys.length = xs.length ∧
    ∀ j (hj : j < xs.length) (hj2 : j < ys.length),
      (∃ a l, attachPayload (xs.get ⟨j, hj⟩) a l = some (ys.get ⟨j, hj2⟩)) ∧
      getProp (ys.get ⟨j, hj2⟩) "text" = getProp (xs.get ⟨j, hj⟩) "text" ∧
      getProp (ys.get ⟨j, hj2⟩) "facialExpression" =
        getProp (xs.get ⟨j, hj⟩) "facialExpression" ∧
      getProp (ys.get ⟨j, hj2⟩) "animation" =
        getProp (xs.get ⟨j, hj⟩) "animation" := by
  rw [chatHandler_arr] at h
  cases hr : (enrichList env 0 xs).2 with
  | error e => rw [hr] at h; simp [Except.map] at h
  | ok ms =>
    rw [hr] at h
    simp only [Except.map, Except.ok.injEq, Json.obj.injEq, List.cons.injEq,
      Prod.mk.injEq, Json.arr.injEq, and_true, true_and] at h
    subst h
    refine ⟨enrichList_ok_length env 0 xs _ hr, ?_⟩
    intro j hj hj2
    obtain ⟨a, l, hat⟩ := enrichList_ok_frame env 0 xs _ hr j hj hj2
    exact ⟨⟨a, l, hat⟩,
      getProp_attachPayload_ne _ _ _ _ _ (by decide) (by decide) hat,
      getProp_attachPayload_ne _ _ _ _ _ (by decide) (by decide) hat,
      getProp_attachPayload_ne _ _ _ _ _ (by decide) (by decide) hat⟩

/-- C10 witness. -/
theorem C10_witness :
    ([mkTurnOut "hi there" "smile" "Talking_0"] : List Json).length =
      oneTurnList.length ∧
    ∀ j (hj : j < oneTurnList.length)
      (hj2 : j < ([mkTurnOut "hi there" "smile" "Talking_0"] : List Json).length),
      (∃ a l, attachPayload (oneTurnList.get ⟨j, hj⟩) a l =
        some (([mkTurnOut "hi there" "smile" "Talking_0"] : List Json).get ⟨j, hj2⟩)) ∧
      getProp (([mkTurnOut "hi there" "smile" "Talking_0"] : List Json).get ⟨j, hj2⟩) "text" =
        getProp (oneTurnList.get ⟨j, hj⟩) "text" ∧
      getProp (([mkTurnOut "hi there" "smile" "Talking_0"] : List Json).get ⟨j, hj2⟩) "facialExpression" =
        getProp (oneTurnList.get ⟨j, hj⟩) "facialExpression" ∧
      getProp (([mkTurnOut "hi there" "smile" "Talking_0"] : List Json).get ⟨j, hj2⟩) "animation" =
        getProp (oneTurnList.get ⟨j, hj⟩) "animation" :=
  C10_enrichment_frame okEnv oneTurnList
    [mkTurnOut "hi there" "smile" "Talking_0"] rfl

end Donna
